import Mathlib

/-!
Shallow embedding of the backup pipeline in `main.py`: tarball creation,
file splitting into fixed-size chunks, per-chunk upload to object storage,
and the orchestrating `main` function with its try/except/finally cleanup.

File contents are modelled as lists of bytes (`List Nat`), the local
filesystem as a partial map from path strings to contents, and the remote
storage client as an oracle returning the outcome of each transfer.
-/

namespace Backuperino

/-- Local filesystem: a partial map from path names to file contents. -/
def FS : Type := String → Option (List Nat)

/-- Write (create or overwrite) a file. -/
def FS.write (fs : FS) (name : String) (data : List Nat) : FS :=
  fun x => if x = name then some data else fs x

/-- Delete a file (models os.remove). -/
def FS.remove (fs : FS) (name : String) : FS :=
  fun x => if x = name then none else fs x

/-- Existence check (models os.path.exists on a file). -/
def FS.fileExists (fs : FS) (name : String) : Bool :=
  (fs name).isSome

/-- Models os.path.basename: the final path segment, everything after the
last slash (empty for a path ending in a slash). -/
def basename (p : String) : String :=
  String.mk ((p.data.reverse.takeWhile (fun c => c ≠ '/')).reverse)

/-- Models the Python format specifier 03d used in the chunk-name
f-string: decimal representation left-padded with zeros to width 3. -/
def pad3 (n : Nat) : String :=
  String.mk (List.replicate (3 - (Nat.repr n).length) '0' ++ (Nat.repr n).data)

/-- The chunk file name built at line 92 of main.py:
base_name + ".part" + zero-padded counter. -/
def chunkName (base : String) (i : Nat) : String :=
  base ++ ".part" ++ pad3 i

/-- The while-loop of split_file (main.py lines 87-97), as a pure function
on the bytes of the source file, with an explicit fuel argument making the
recursion structural (each iteration strictly shortens the remaining data
when it produces a chunk, so any fuel above the data length is enough; see
splitLoop_eq).  Each iteration reads up to n bytes; a read returning zero
bytes (n = 0, or no data left) stops the loop.  The counter c is the
running chunk index.  Returns the (name, contents) pairs of the chunks
written, in creation order. -/
def splitLoopF (b : String) (n : Nat) : Nat → List Nat → Nat →
    List (String × List Nat)
  | 0, _, _ => []
  | fuel + 1, data, c =>
    if n = 0 ∨ data = [] then []
    else (chunkName b c, data.take n) :: splitLoopF b n fuel (data.drop n) (c + 1)

/-- The split_file loop with adequate fuel. -/
def splitLoop (b : String) (n : Nat) (data : List Nat) (c : Nat) :
    List (String × List Nat) :=
  splitLoopF b n (data.length + 1) data c

/-- The chunks (contents of the chunk files) produced by split_file on a
file whose bytes are data, with chunk size n. -/
def splitChunks (b : String) (n : Nat) (data : List Nat) :
    List (String × List Nat) :=
  splitLoop b n data 0

/-- The chunk_names list returned by split_file (main.py line 98). -/
def splitNames (b : String) (n : Nat) (data : List Nat) : List String :=
  (splitChunks b n data).map Prod.fst

/-- The chunk size main passes to split_file: int(3.9 * 1024 * 1024 * 1024),
the truncation of the IEEE-754 double product. -/
def defaultChunkSize : Nat := 4187593113

/-- Severity levels of the logging calls in main.py. -/
inductive Level : Type
  | info : Level
  | warning : Level
  | error : Level
deriving DecidableEq, Repr

/-- One log line: severity and message. -/
structure LogMsg : Type where
  level : Level
  msg : String
deriving DecidableEq, Repr

/-- Outcome of one s3.upload_file call as reported by the storage client
(main.py line 72): success, a botocore ClientError carrying a message, or
any other exception carrying a message. -/
inductive ClientResult : Type
  | success : ClientResult
  | clientError : String → ClientResult
  | otherError : String → ClientResult
deriving DecidableEq, Repr

/-- The storage client as an oracle: given file name, bucket and object
name, the outcome s3.upload_file reports for that transfer. -/
def Client : Type := String → String → String → ClientResult

/-- upload_to_r2 (main.py lines 66-79).  Defaults the object name to the
base name of the file, asks the client to transfer, returns True exactly
on success and False after logging on either exception class; it catches
every exception, so it is a total function into Bool (it cannot raise). -/
def upload_to_r2 (client : Client) (file_name : String) (bucket : String)
    (object_name : Option String) : Bool × List LogMsg :=
  let obj := object_name.getD (basename file_name)
  match client file_name bucket obj with
  | ClientResult.success =>
      (true, [⟨Level.info, "File uploaded successfully to " ++ bucket ++ "/" ++ obj⟩])
  | ClientResult.clientError e =>
      (false, [⟨Level.error, "ClientError in upload_to_r2: " ++ e⟩])
  | ClientResult.otherError e =>
      (false, [⟨Level.error, "Unexpected error in upload_to_r2: " ++ e⟩])

/-- The for-loop of create_tarball (main.py lines 55-60): for each source
directory, in order, the existing ones are added to the tar under their
base name, the missing ones produce a warning.  Returns the in-archive
root names of the members actually added, plus the log lines. -/
def tarAddLoop (dirExists : String → Bool) : List String → List String × List LogMsg
  | [] => ([], [])
  | d :: ds =>
    let r := tarAddLoop dirExists ds
    if dirExists d then
      (basename d :: r.1, ⟨Level.info, "Added " ++ d ++ " to tarball"⟩ :: r.2)
    else
      (r.1, ⟨Level.warning, "Directory not found: " ++ d⟩ :: r.2)

/-- The environment of one run of main: configuration read at process
start, the initial local filesystem, and the injected outcomes of the
effectful collaborators (tar stream, file reads, storage client).
Failures of archiving and splitting are injected as the exception message
they raise; archivePartial says whether the failed tar stream had already
created the output file (tarfile.open creates it before members are
added).  splitFailAfter (some (k, e)) makes the split loop raise e after
having written min k (number of chunks) chunk files. -/
structure Env : Type where
  folders : List String
  dirExists : String → Bool
  bucket : String
  archiveErr : Option String
  archivePartial : Bool
  archiveData : List Nat
  splitFailAfter : Option (Nat × String)
  client : Client
  fs0 : FS

/-- create_tarball (main.py lines 51-64) acting on the filesystem.  The
gzip-compressed bytes of the archive are opaque to the model and supplied
by the environment; on an injected stream error the function logs and
re-raises (the output file may or may not exist, per archivePartial).
Returns the new filesystem, the log, and the raised exception if any. -/
def create_tarball_run (env : Env) (fs : FS) (out : String) :
    FS × List LogMsg × Option String :=
  let r := tarAddLoop env.dirExists env.folders
  match env.archiveErr with
  | some e =>
      ((if env.archivePartial then FS.write fs out env.archiveData else fs),
       r.2 ++ [⟨Level.error, "Error creating tarball: " ++ e⟩], some e)
  | none =>
      (FS.write fs out env.archiveData,
       r.2 ++ [⟨Level.info, "Tarball created: " ++ out⟩], none)

/-- Write a list of (name, contents) chunk files in order. -/
def writeChunks (fs : FS) : List (String × List Nat) → FS
  | [] => fs
  | c :: cs => writeChunks (FS.write fs c.1 c.2) cs

/-- split_file (main.py lines 81-101) acting on the filesystem.  Opening
a missing file raises; otherwise the loop writes the chunks of the file
bytes.  An injected I/O failure after k chunks leaves those k chunk files
on disk, logs, and re-raises; on success the ordered chunk-name list is
returned. -/
def split_file_run (fs : FS) (path : String) (chunk_size : Nat)
    (failAfter : Option (Nat × String)) :
    FS × List LogMsg × Except String (List String) :=
  match fs path with
  | none =>
      (fs, [⟨Level.error, "Error splitting file: file not found: " ++ path⟩],
       Except.error ("file not found: " ++ path))
  | some data =>
    let chunks := splitChunks (basename path) chunk_size data
    match failAfter with
    | some ke =>
        (writeChunks fs (chunks.take ke.1),
         ((chunks.take ke.1).map (fun c => ⟨Level.info, "Created chunk: " ++ c.1⟩)) ++
           [⟨Level.error, "Error splitting file: " ++ ke.2⟩],
         Except.error ke.2)
    | none =>
        (writeChunks fs chunks,
         chunks.map (fun c => ⟨Level.info, "Created chunk: " ++ c.1⟩),
         Except.ok (chunks.map Prod.fst))

/-- Result of the chunk-upload for-loop of main (main.py lines 112-119):
final filesystem, aggregate success flag, the chunk names attempted in
order, and the log. -/
structure ULRes : Type where
  fs : FS
  flag : Bool
  attempts : List String
  log : List LogMsg

/-- The chunk-upload for-loop of main (main.py lines 112-119): every chunk
name is attempted in list order; on upload success the local chunk file is
removed at once; on failure the file is kept and the aggregate flag drops
to false; the loop never stops early. -/
def uploadLoop (client : Client) (bucket : String) :
    FS → Bool → List String → ULRes
  | fs, flag, [] => ⟨fs, flag, [], []⟩
  | fs, flag, name :: rest =>
    let u := upload_to_r2 client name bucket none
    if u.1 then
      let r := uploadLoop client bucket (FS.remove fs name) flag rest
      ⟨r.fs, r.flag, name :: r.attempts,
        u.2 ++ [⟨Level.info, "Chunk " ++ name ++ " uploaded successfully"⟩,
                ⟨Level.info, "Local chunk " ++ name ++ " removed"⟩] ++ r.log⟩
    else
      let r := uploadLoop client bucket fs false rest
      ⟨r.fs, r.flag, name :: r.attempts,
        u.2 ++ [⟨Level.error, "Failed to upload chunk " ++ name⟩] ++ r.log⟩

/-- Whether the upload of the chunk file named x succeeds in env (the
Boolean upload_to_r2 returns for it inside the main loop). -/
def chunkOk (env : Env) (x : String) : Bool :=
  (upload_to_r2 env.client x env.bucket none).1

/-- The finally block of main (main.py lines 128-131): delete the backup
archive if it still exists. -/
def cleanupBackup (fs : FS) (bn : String) : FS × List LogMsg :=
  if FS.fileExists fs bn then
    (FS.remove fs bn, [⟨Level.info, "Local tarball " ++ bn ++ " removed"⟩])
  else (fs, [])

/-- Observable outcome of one run of main: the final local filesystem,
the final status line (some true = "Backup completed successfully",
some false = "Backup failed", none = an exception skipped the status
line), the exception caught by the except block if any, the chunk names
attempted, and the log.  main always returns this record normally: its
catch-all except block absorbs every exception of the pipeline. -/
structure MainResult : Type where
  fs : FS
  status : Option Bool
  caught : Option String
  attempts : List String
  log : List LogMsg

/-- Assemble the result of main after the try/except body: run the
finally block on the filesystem and append its log. -/
def finishRun (bn : String) (fs : FS) (logs : List LogMsg)
    (status : Option Bool) (caught : Option String) (att : List String) :
    MainResult :=
  let c := cleanupBackup fs bn
  ⟨c.1, status, caught, att, logs ++ c.2⟩

/-- main (main.py lines 103-131) with the timestamped archive name bn and
the chunk size passed to split_file as parameters.  The try body runs
create_tarball, split_file and the upload loop; any exception of the two
former stages is caught, logged and swallowed; the finally block always
deletes the archive file if present. -/
def mainRun (env : Env) (bn : String) (chunk_size : Nat) : MainResult :=
  match create_tarball_run env env.fs0 bn with
  | (fs1, tlogs, some e) =>
      finishRun bn fs1
        (tlogs ++ [⟨Level.error, "An error occurred during the backup process: " ++ e⟩])
        none (some e) []
  | (fs1, tlogs, none) =>
    match split_file_run fs1 bn chunk_size env.splitFailAfter with
    | (fs2, slogs, Except.error e) =>
        finishRun bn fs2
          (tlogs ++ slogs ++
            [⟨Level.error, "An error occurred during the backup process: " ++ e⟩])
          none (some e) []
    | (fs2, slogs, Except.ok names) =>
      let r := uploadLoop env.client env.bucket fs2 true names
      finishRun bn r.fs
        (tlogs ++ slogs ++ r.log ++
          [if r.flag then ⟨Level.info, "Backup completed successfully"⟩
           else ⟨Level.error, "Backup failed"⟩])
        (some r.flag) none r.attempts

/-- The outcome of the try body of main (lines 107-124) before the except
and finally blocks run: either the aggregate flag it computes, or the
exception it raises. -/
def tryOutcome (env : Env) (bn : String) (chunk_size : Nat) : Except String Bool :=
  match create_tarball_run env env.fs0 bn with
  | (_, _, some e) => Except.error e
  | (fs1, _, none) =>
    match split_file_run fs1 bn chunk_size env.splitFailAfter with
    | (_, _, Except.error e) => Except.error e
    | (fs2, _, Except.ok names) =>
        Except.ok (uploadLoop env.client env.bucket fs2 true names).flag

/-- The exception carried by an Except value, if any. -/
def errOf (x : Except String Bool) : Option String :=
  match x with
  | Except.error e => some e
  | Except.ok _ => none

/-- The normal value carried by an Except value, if any. -/
def okOf (x : Except String Bool) : Option Bool :=
  match x with
  | Except.error _ => none
  | Except.ok b => some b

/-- The chunk names a run of main produces and iterates over, when
archiving and splitting succeed: split_file applied to the archive bytes
under the base name of the archive file. -/
def runNames (env : Env) (bn : String) (chunk_size : Nat) : List String :=
  splitNames (basename bn) chunk_size env.archiveData

/-- The empty local filesystem. -/
def fsEmpty : FS := fun _ => none

/-- A run whose source directory is missing but whose uploads all
succeed: one folder in the list, no directory exists, archiving and
splitting succeed, every transfer succeeds. -/
def envMissingDir : Env :=
  ⟨["/gone"], fun _ => false, "bkt", none, false, [7], none,
    fun _ _ _ => ClientResult.success, fsEmpty⟩

/-- A run in which the only chunk upload fails with a client error. -/
def envChunkFail : Env :=
  ⟨["/data"], fun _ => true, "bkt", none, false, [7], none,
    fun _ _ _ => ClientResult.clientError "denied", fsEmpty⟩

/-- A run with two one-byte chunks in which the first chunk uploads and
the second fails. -/
def envMixed : Env :=
  ⟨["/data"], fun _ => true, "bkt", none, false, [1, 2], none,
    fun f _ _ => if f = "b.part000" then ClientResult.success
                 else ClientResult.clientError "denied", fsEmpty⟩

/-- A run whose archive file is empty (zero bytes). -/
def envEmptyArchive : Env :=
  ⟨["/data"], fun _ => true, "bkt", none, false, [], none,
    fun _ _ _ => ClientResult.success, fsEmpty⟩

/-- The round-trip contract of split_file on a file with bytes data and
chunk size n: concatenating the chunk contents in order restores the
file, a nonempty file no larger than the chunk size gives exactly one
chunk, and no produced chunk is empty (so an exact multiple of the chunk
size produces no trailing empty chunk). -/
def splitRoundTripProp (b : String) (n : Nat) (data : List Nat) : Prop :=
  ((splitChunks b n data).map Prod.snd).flatten = data ∧
  (data ≠ [] → data.length ≤ n → (splitChunks b n data).length = 1) ∧
  (∀ p ∈ splitChunks b n data, p.2 ≠ [])

/-- The naming contract of split_file: the chunk names are exactly
chunkName applied to the base name and the indices 0, 1, ... in order (a
deterministic function of base name and index), and for at most 1000
chunks the name list is strictly increasing in the lexicographic string
order. -/
def splitNamesProp (b : String) (n : Nat) (data : List Nat) : Prop :=
  splitNames b n data
    = (List.range (splitChunks b n data).length).map (chunkName b) ∧
  ((splitChunks b n data).length ≤ 1000 →
    List.Chain' (· < ·) (splitNames b n data))

/-- The upload-stage contract of main for a run whose archive and split
stages succeed: chunks are attempted exactly in production order, the
final status reports success exactly when every upload succeeded, and
after the run each chunk file is deleted when its upload succeeded and
still present when it failed. -/
def uploadStageProp (env : Env) (bn : String) (chunk_size : Nat) : Prop :=
  (mainRun env bn chunk_size).attempts = runNames env bn chunk_size ∧
  (mainRun env bn chunk_size).status
    = some ((runNames env bn chunk_size).all (chunkOk env)) ∧
  ∀ x ∈ runNames env bn chunk_size,
    (chunkOk env x = true → (mainRun env bn chunk_size).fs x = none) ∧
    (chunkOk env x = false → ((mainRun env bn chunk_size).fs x).isSome = true)

/-- The cleanup contract of main: the archive file is gone on every exit
path; and on runs whose archive and split stages succeed, a chunk file is
gone exactly when its upload succeeded (a failed chunk remains on disk). -/
def cleanupProp (env : Env) (bn : String) (chunk_size : Nat) : Prop :=
  (mainRun env bn chunk_size).fs bn = none ∧
  (env.archiveErr = none → env.splitFailAfter = none → basename bn = bn →
    ∀ x ∈ runNames env bn chunk_size,
      (chunkOk env x = true → (mainRun env bn chunk_size).fs x = none) ∧
      (chunkOk env x = false → ((mainRun env bn chunk_size).fs x).isSome = true))

/-- The reporting contract of main: on runs whose archive and split
stages succeed, the status line reports success exactly when every chunk
upload succeeded and no exception is caught; a missing source directory
produces a warning in the log (on every run) and takes no other part in
the outcome. -/
def reportProp (env : Env) (bn : String) (chunk_size : Nat) : Prop :=
  (env.archiveErr = none → env.splitFailAfter = none →
    (mainRun env bn chunk_size).status
        = some ((runNames env bn chunk_size).all (chunkOk env)) ∧
      (mainRun env bn chunk_size).caught = none) ∧
  (∀ d ∈ env.folders, env.dirExists d = false →
    (⟨Level.warning, "Directory not found: " ++ d⟩ : LogMsg)
      ∈ (mainRun env bn chunk_size).log)

/-- The contract of upload_to_r2: it returns True exactly when the
storage client reports success for the transfer of the file to the
defaulted object name, and whenever it returns False an error line was
logged.  Its total type records that it never raises. -/
def uploadResultProp (client : Client) (f b : String) (o : Option String) : Prop :=
  ((upload_to_r2 client f b o).1 = true
    ↔ client f b (o.getD (basename f)) = ClientResult.success) ∧
  ((upload_to_r2 client f b o).1 = false
    → ∃ m ∈ (upload_to_r2 client f b o).2, m.level = Level.error)

/-- The contract of create_tarball: the members added to the archive are
exactly the existing source paths, in the given order, rooted at their
base names; every missing path is logged as a warning; and a run without
an injected stream error raises nothing, whatever paths are missing. -/
def archiveMembersProp (dirExists : String → Bool) (dirs : List String) : Prop :=
  (tarAddLoop dirExists dirs).1 = (dirs.filter dirExists).map basename ∧
  (∀ d ∈ dirs, dirExists d = false →
    (⟨Level.warning, "Directory not found: " ++ d⟩ : LogMsg)
      ∈ (tarAddLoop dirExists dirs).2)

/-- The zero-byte contract: split_file on an empty file yields no chunks,
and a run of main whose archive is empty attempts no uploads, reports
success, and leaves every other file of the filesystem untouched. -/
def emptyArchiveProp (env : Env) (bn : String) (chunk_size : Nat) : Prop :=
  splitChunks (basename bn) chunk_size [] = [] ∧
  (mainRun env bn chunk_size).attempts = [] ∧
  (mainRun env bn chunk_size).status = some true ∧
  ∀ x, x ≠ bn → (mainRun env bn chunk_size).fs x = env.fs0 x

theorem FS.write_self (fs : FS) (n : String) (d : List Nat) :
    FS.write fs n d n = some d := by
  simp [FS.write]

theorem FS.write_ne (fs : FS) {n x : String} (d : List Nat) (h : x ≠ n) :
    FS.write fs n d x = fs x := by
  simp [FS.write, h]

theorem FS.remove_self (fs : FS) (n : String) : FS.remove fs n n = none := by
  simp [FS.remove]

theorem FS.remove_ne (fs : FS) {n x : String} (h : x ≠ n) :
    FS.remove fs n x = fs x := by
  simp [FS.remove, h]

theorem cleanupBackup_fs_self (fs : FS) (bn : String) :
    (cleanupBackup fs bn).1 bn = none := by
  unfold cleanupBackup
  by_cases h : FS.fileExists fs bn
  · simp [h, FS.remove_self]
  · simp [h]
    exact Option.not_isSome_iff_eq_none.mp (by simpa [FS.fileExists] using h)

theorem cleanupBackup_fs_ne (fs : FS) {bn x : String} (h : x ≠ bn) :
    (cleanupBackup fs bn).1 x = fs x := by
  unfold cleanupBackup
  by_cases hb : FS.fileExists fs bn <;> simp [hb, FS.remove_ne fs h]

theorem finishRun_fs_self (bn : String) (fs : FS) (logs : List LogMsg)
    (st : Option Bool) (c : Option String) (a : List String) :
    (finishRun bn fs logs st c a).fs bn = none := by
  simp [finishRun, cleanupBackup_fs_self]

theorem finishRun_fs_ne (bn : String) (fs : FS) (logs : List LogMsg)
    (st : Option Bool) (c : Option String) (a : List String) {x : String}
    (h : x ≠ bn) :
    (finishRun bn fs logs st c a).fs x = fs x := by
  simp [finishRun, cleanupBackup_fs_ne fs h]

theorem finishRun_status (bn : String) (fs : FS) (logs : List LogMsg)
    (st : Option Bool) (c : Option String) (a : List String) :
    (finishRun bn fs logs st c a).status = st := rfl

theorem finishRun_caught (bn : String) (fs : FS) (logs : List LogMsg)
    (st : Option Bool) (c : Option String) (a : List String) :
    (finishRun bn fs logs st c a).caught = c := rfl

theorem finishRun_attempts (bn : String) (fs : FS) (logs : List LogMsg)
    (st : Option Bool) (c : Option String) (a : List String) :
    (finishRun bn fs logs st c a).attempts = a := rfl

theorem finishRun_log_mem (bn : String) (fs : FS) (logs : List LogMsg)
    (st : Option Bool) (c : Option String) (a : List String) {m : LogMsg}
    (h : m ∈ logs) : m ∈ (finishRun bn fs logs st c a).log := by
  simp [finishRun]
  exact Or.inl h

theorem splitLoopF_fuel_irrel (b : String) (n : Nat) :
    ∀ (f₁ : Nat), ∀ (f₂ : Nat), ∀ (data : List Nat), ∀ (c : Nat),
      data.length < f₁ → data.length < f₂ →
      splitLoopF b n f₁ data c = splitLoopF b n f₂ data c := by
  intro f₁
  induction f₁ with
  | zero => intro f₂ data c h₁ _; exact absurd h₁ (Nat.not_lt_zero _)
  | succ f ih =>
    intro f₂ data c h₁ h₂
    match f₂ with
    | 0 => exact absurd h₂ (Nat.not_lt_zero _)
    | f' + 1 =>
      simp only [splitLoopF]
      by_cases hc : n = 0 ∨ data = []
      · simp [hc]
      · simp only [hc, if_false]
        push_neg at hc
        have hd : (data.drop n).length = data.length - n := List.length_drop n data
        have hpos : 0 < data.length := List.length_pos.mpr hc.2
        have hn : 0 < n := Nat.pos_of_ne_zero hc.1
        have := ih f' (data.drop n) (c + 1) (by omega) (by omega)
        rw [this]

theorem splitLoop_eq (b : String) (n : Nat) (data : List Nat) (c : Nat) :
    splitLoop b n data c =
      if n = 0 ∨ data = [] then []
      else (chunkName b c, data.take n) :: splitLoop b n (data.drop n) (c + 1) := by
  by_cases hc : n = 0 ∨ data = []
  · simp [splitLoop, splitLoopF, hc]
  · have hc' := hc
    push_neg at hc'
    have hd : (data.drop n).length = data.length - n := List.length_drop n data
    have hpos : 0 < data.length := List.length_pos.mpr hc'.2
    have hn : 0 < n := Nat.pos_of_ne_zero hc'.1
    have R : splitLoopF b n data.length (data.drop n) (c + 1)
        = splitLoop b n (data.drop n) (c + 1) :=
      splitLoopF_fuel_irrel b n data.length ((data.drop n).length + 1)
        (data.drop n) (c + 1) (by omega) (by omega)
    rw [if_neg hc, ← R]
    unfold splitLoop
    simp only [splitLoopF]
    rw [if_neg hc]

theorem splitLoopF_join (b : String) {n : Nat} (hn : 0 < n) :
    ∀ (fuel : Nat), ∀ (data : List Nat), ∀ (c : Nat), data.length < fuel →
      ((splitLoopF b n fuel data c).map Prod.snd).flatten = data := by
  intro fuel
  induction fuel with
  | zero => intro data c h; exact absurd h (Nat.not_lt_zero _)
  | succ f ih =>
    intro data c h
    simp only [splitLoopF]
    by_cases hd : data = []
    · simp [hd]
    · rw [if_neg (by push_neg; exact ⟨Nat.pos_iff_ne_zero.mp hn, hd⟩)]
      simp only [List.map_cons, List.flatten_cons]
      rw [ih (data.drop n) (c + 1)
        (by have := List.length_drop n data
            have := List.length_pos.mpr hd
            omega)]
      exact List.take_append_drop n data

theorem splitChunks_join (b : String) {n : Nat} (data : List Nat) (hn : 0 < n) :
    ((splitChunks b n data).map Prod.snd).flatten = data :=
  splitLoopF_join b hn (data.length + 1) data 0 (Nat.lt_succ_self _)

theorem splitLoop_single (b : String) {n : Nat} {data : List Nat} (c : Nat)
    (hn : 0 < n) (hd : data ≠ []) (hlen : data.length ≤ n) :
    splitLoop b n data c = [(chunkName b c, data)] := by
  rw [splitLoop_eq, if_neg (by push_neg; exact ⟨Nat.pos_iff_ne_zero.mp hn, hd⟩)]
  rw [List.take_of_length_le hlen, List.drop_eq_nil_of_le hlen]
  rw [splitLoop_eq]
  simp

theorem splitLoopF_snd_ne_nil (b : String) {n : Nat} (hn : 0 < n) :
    ∀ (fuel : Nat), ∀ (data : List Nat), ∀ (c : Nat), ∀ p : String × List Nat,
      p ∈ splitLoopF b n fuel data c → p.2 ≠ [] := by
  intro fuel
  induction fuel with
  | zero => intro data c p hp; simp [splitLoopF] at hp
  | succ f ih =>
    intro data c p hp
    simp only [splitLoopF] at hp
    by_cases hc : n = 0 ∨ data = []
    · simp [hc] at hp
    · rw [if_neg hc] at hp
      push_neg at hc
      rcases List.mem_cons.mp hp with h | h
      · subst h
        simp only []
        intro hnil
        rcases List.take_eq_nil_iff.mp hnil with h0 | h0
        · exact Nat.pos_iff_ne_zero.mp hn h0
        · exact hc.2 h0
      · exact ih (data.drop n) (c + 1) p h

theorem splitLoopF_names (b : String) (n : Nat) :
    ∀ (fuel : Nat), ∀ (data : List Nat), ∀ (c : Nat),
      (splitLoopF b n fuel data c).map Prod.fst
        = (List.range' c (splitLoopF b n fuel data c).length).map (chunkName b) := by
  intro fuel
  induction fuel with
  | zero => intro data c; simp [splitLoopF]
  | succ f ih =>
    intro data c
    simp only [splitLoopF]
    by_cases hc : n = 0 ∨ data = []
    · simp [hc]
    · rw [if_neg hc]
      simp only [List.map_cons, List.length_cons, List.range'_succ]
      rw [ih (data.drop n) (c + 1)]

theorem splitLoopF_fst_shape (b : String) (n : Nat) :
    ∀ (fuel : Nat), ∀ (data : List Nat), ∀ (c : Nat), ∀ p : String × List Nat,
      p ∈ splitLoopF b n fuel data c → ∃ i, p.1 = chunkName b i := by
  intro fuel
  induction fuel with
  | zero => intro data c p hp; simp [splitLoopF] at hp
  | succ f ih =>
    intro data c p hp
    simp only [splitLoopF] at hp
    by_cases hc : n = 0 ∨ data = []
    · simp [hc] at hp
    · rw [if_neg hc] at hp
      rcases List.mem_cons.mp hp with h | h
      · exact ⟨c, by rw [h]⟩
      · exact ih (data.drop n) (c + 1) p h

theorem splitNames_eq_range (b : String) (n : Nat) (data : List Nat) :
    splitNames b n data
      = (List.range (splitChunks b n data).length).map (chunkName b) := by
  unfold splitNames splitChunks splitLoop
  rw [splitLoopF_names b n (data.length + 1) data 0, List.range_eq_range']

theorem splitLoopF_replicate_len (b : String) (x : Nat) :
    ∀ (fuel : Nat), ∀ (k : Nat), ∀ (c : Nat), k < fuel →
      (splitLoopF b 1 fuel (List.replicate k x) c).length = k := by
  intro fuel
  induction fuel with
  | zero => intro k c h; exact absurd h (Nat.not_lt_zero _)
  | succ f ih =>
    intro k c h
    match k with
    | 0 => simp [splitLoopF]
    | k + 1 =>
      simp only [splitLoopF]
      rw [if_neg (by simp)]
      simp only [List.length_cons, List.replicate_succ, List.drop_succ_cons,
        List.drop_zero]
      rw [ih k (c + 1) (by omega)]

theorem uploadLoop_attempts (client : Client) (bucket : String) :
    ∀ (names : List String), ∀ (fs : FS), ∀ (flag : Bool),
      (uploadLoop client bucket fs flag names).attempts = names := by
  intro names
  induction names with
  | nil => intro fs flag; rfl
  | cons name rest ih =>
    intro fs flag
    simp only [uploadLoop]
    by_cases h : (upload_to_r2 client name bucket none).1 <;> simp [h, ih]

theorem uploadLoop_flag (client : Client) (bucket : String) :
    ∀ (names : List String), ∀ (fs : FS), ∀ (flag : Bool),
      (uploadLoop client bucket fs flag names).flag
        = (flag && names.all (fun x => (upload_to_r2 client x bucket none).1)) := by
  intro names
  induction names with
  | nil => intro fs flag; simp [uploadLoop]
  | cons name rest ih =>
    intro fs flag
    simp only [uploadLoop]
    by_cases h : (upload_to_r2 client name bucket none).1
    · simp [h, ih, Bool.and_assoc]
    · simp [h, ih]

theorem uploadLoop_fs (client : Client) (bucket : String) :
    ∀ (names : List String), ∀ (fs : FS), ∀ (flag : Bool), ∀ (x : String),
      (uploadLoop client bucket fs flag names).fs x
        = if x ∈ names ∧ (upload_to_r2 client x bucket none).1 = true
          then none else fs x := by
  intro names
  induction names with
  | nil => intro fs flag x; simp [uploadLoop]
  | cons name rest ih =>
    intro fs flag x
    simp only [uploadLoop]
    by_cases h : (upload_to_r2 client name bucket none).1
    · simp only [h, if_true]
      rw [ih]
      by_cases hr : x ∈ rest ∧ (upload_to_r2 client x bucket none).1 = true
      · rw [if_pos hr, if_pos ⟨List.mem_cons_of_mem name hr.1, hr.2⟩]
      · rw [if_neg hr]
        by_cases hx : x = name
        · subst hx
          rw [FS.remove_self, if_pos ⟨List.mem_cons_self x rest, h⟩]
        · rw [FS.remove_ne fs hx]
          rw [if_neg (by
            intro hcon
            rcases List.mem_cons.mp hcon.1 with h1 | h1
            · exact hx h1
            · exact hr ⟨h1, hcon.2⟩)]
    · simp only [h, if_false, Bool.false_eq_true]
      rw [ih]
      by_cases hr : x ∈ rest ∧ (upload_to_r2 client x bucket none).1 = true
      · rw [if_pos hr, if_pos ⟨List.mem_cons_of_mem name hr.1, hr.2⟩]
      · rw [if_neg hr]
        rw [if_neg (by
          intro hcon
          rcases List.mem_cons.mp hcon.1 with h1 | h1
          · subst h1; exact h (by exact hcon.2)
          · exact hr ⟨h1, hcon.2⟩)]

theorem writeChunks_isSome_mono (x : String) :
    ∀ (chunks : List (String × List Nat)), ∀ (fs : FS),
      (fs x).isSome = true → ((writeChunks fs chunks) x).isSome = true := by
  intro chunks
  induction chunks with
  | nil => intro fs h; exact h
  | cons c cs ih =>
    intro fs h
    simp only [writeChunks]
    apply ih
    by_cases hx : x = c.1
    · subst hx; simp [FS.write_self]
    · rw [FS.write_ne fs c.2 hx]; exact h

theorem writeChunks_mem_isSome (x : String) :
    ∀ (chunks : List (String × List Nat)), ∀ (fs : FS),
      x ∈ chunks.map Prod.fst → ((writeChunks fs chunks) x).isSome = true := by
  intro chunks
  induction chunks with
  | nil => intro fs h; simp at h
  | cons c cs ih =>
    intro fs h
    rw [List.map_cons] at h
    rcases List.mem_cons.mp h with h1 | h1
    · simp only [writeChunks]
      apply writeChunks_isSome_mono
      subst h1
      simp [FS.write_self]
    · exact ih (FS.write fs c.1 c.2) h1

theorem writeChunks_not_mem (x : String) :
    ∀ (chunks : List (String × List Nat)), ∀ (fs : FS),
      x ∉ chunks.map Prod.fst → (writeChunks fs chunks) x = fs x := by
  intro chunks
  induction chunks with
  | nil => intro fs _; rfl
  | cons c cs ih =>
    intro fs h
    simp only [writeChunks]
    rw [ih (FS.write fs c.1 c.2) (fun hm => h (by simp [hm]))]
    exact FS.write_ne fs c.2 (fun he => h (by simp [he]))

theorem chunkName_ne_base (b : String) (i : Nat) : chunkName b i ≠ b := by
  intro h
  have hl := congrArg String.length h
  rw [chunkName, String.length_append, String.length_append] at hl
  have h5 : (".part" : String).length = 5 := by decide
  omega

theorem tarAddLoop_members (dirExists : String → Bool) :
    ∀ (dirs : List String),
      (tarAddLoop dirExists dirs).1 = (dirs.filter dirExists).map basename := by
  intro dirs
  induction dirs with
  | nil => rfl
  | cons d ds ih =>
    simp only [tarAddLoop]
    by_cases h : dirExists d <;> simp [h, ih, List.filter_cons]

theorem tarAddLoop_warn (dirExists : String → Bool) :
    ∀ (dirs : List String), ∀ (d : String), d ∈ dirs → dirExists d = false →
      (⟨Level.warning, "Directory not found: " ++ d⟩ : LogMsg)
        ∈ (tarAddLoop dirExists dirs).2 := by
  intro dirs
  induction dirs with
  | nil => intro d h _; simp at h
  | cons e ds ih =>
    intro d h hm
    simp only [tarAddLoop]
    rcases List.mem_cons.mp h with h1 | h1
    · subst h1
      rw [if_neg (by simp [hm])]
      exact List.mem_cons_self _ _
    · by_cases he : dirExists e = true
      · rw [if_pos he]
        exact List.mem_cons_of_mem _ (ih d h1 hm)
      · rw [if_neg he]
        exact List.mem_cons_of_mem _ (ih d h1 hm)

theorem create_tarball_run_ok (env : Env) (fs : FS) (out : String)
    (ha : env.archiveErr = none) :
    create_tarball_run env fs out
      = (FS.write fs out env.archiveData,
         (tarAddLoop env.dirExists env.folders).2
           ++ [⟨Level.info, "Tarball created: " ++ out⟩], none) := by
  unfold create_tarball_run
  rw [ha]

theorem split_file_run_ok (fs : FS) (path : String) (chunk_size : Nat)
    (data : List Nat) (hf : fs path = some data) :
    split_file_run fs path chunk_size none
      = (writeChunks fs (splitChunks (basename path) chunk_size data),
         (splitChunks (basename path) chunk_size data).map
           (fun c => ⟨Level.info, "Created chunk: " ++ c.1⟩),
         Except.ok ((splitChunks (basename path) chunk_size data).map Prod.fst)) := by
  unfold split_file_run
  rw [hf]

theorem mainRun_status_ok (env : Env) (bn : String) (chunk_size : Nat)
    (ha : env.archiveErr = none) (hs : env.splitFailAfter = none) :
    (mainRun env bn chunk_size).status
      = some ((runNames env bn chunk_size).all (chunkOk env)) := by
  unfold mainRun
  rw [create_tarball_run_ok env env.fs0 bn ha, hs]
  dsimp only []
  rw [split_file_run_ok (FS.write env.fs0 bn env.archiveData) bn chunk_size
      env.archiveData (FS.write_self env.fs0 bn env.archiveData)]
  dsimp only []
  simp only [finishRun_status]
  rw [uploadLoop_flag]
  simp only [Bool.true_and, runNames, splitNames]
  rfl

theorem mainRun_attempts_ok (env : Env) (bn : String) (chunk_size : Nat)
    (ha : env.archiveErr = none) (hs : env.splitFailAfter = none) :
    (mainRun env bn chunk_size).attempts = runNames env bn chunk_size := by
  unfold mainRun
  rw [create_tarball_run_ok env env.fs0 bn ha, hs]
  dsimp only []
  rw [split_file_run_ok (FS.write env.fs0 bn env.archiveData) bn chunk_size
      env.archiveData (FS.write_self env.fs0 bn env.archiveData)]
  dsimp only []
  simp only [finishRun_attempts]
  rw [uploadLoop_attempts]
  simp [runNames, splitNames]

theorem mainRun_caught_ok (env : Env) (bn : String) (chunk_size : Nat)
    (ha : env.archiveErr = none) (hs : env.splitFailAfter = none) :
    (mainRun env bn chunk_size).caught = none := by
  unfold mainRun
  rw [create_tarball_run_ok env env.fs0 bn ha, hs]
  dsimp only []
  rw [split_file_run_ok (FS.write env.fs0 bn env.archiveData) bn chunk_size
      env.archiveData (FS.write_self env.fs0 bn env.archiveData)]
  dsimp only []
  simp only [finishRun_caught]

theorem mainRun_fs_ok (env : Env) (bn : String) (chunk_size : Nat)
    (ha : env.archiveErr = none) (hs : env.splitFailAfter = none)
    (x : String) (hx : x ≠ bn) :
    (mainRun env bn chunk_size).fs x
      = if x ∈ runNames env bn chunk_size ∧ chunkOk env x = true
        then none
        else writeChunks (FS.write env.fs0 bn env.archiveData)
          (splitChunks (basename bn) chunk_size env.archiveData) x := by
  unfold mainRun
  rw [create_tarball_run_ok env env.fs0 bn ha, hs]
  dsimp only []
  rw [split_file_run_ok (FS.write env.fs0 bn env.archiveData) bn chunk_size
      env.archiveData (FS.write_self env.fs0 bn env.archiveData)]
  dsimp only []
  rw [finishRun_fs_ne _ _ _ _ _ _ hx]
  rw [uploadLoop_fs]
  simp [runNames, splitNames, chunkOk]

theorem mainRun_fs_bn (env : Env) (bn : String) (chunk_size : Nat) :
    (mainRun env bn chunk_size).fs bn = none := by
  unfold mainRun
  rcases hc : create_tarball_run env env.fs0 bn with ⟨fs1, tlogs, oe⟩
  cases oe with
  | some e =>
    dsimp only []
    exact finishRun_fs_self _ _ _ _ _ _
  | none =>
    dsimp only []
    rcases hsp : split_file_run fs1 bn chunk_size env.splitFailAfter with ⟨fs2, slogs, res⟩
    cases res with
    | error e =>
      dsimp only []
      exact finishRun_fs_self _ _ _ _ _ _
    | ok names =>
      dsimp only []
      exact finishRun_fs_self _ _ _ _ _ _

theorem mainRun_log_tar (env : Env) (bn : String) (chunk_size : Nat)
    {m : LogMsg} (hm : m ∈ (tarAddLoop env.dirExists env.folders).2) :
    m ∈ (mainRun env bn chunk_size).log := by
  unfold mainRun create_tarball_run
  cases ha : env.archiveErr with
  | some e =>
    dsimp only []
    apply finishRun_log_mem
    exact List.mem_append_left _ (List.mem_append_left _ hm)
  | none =>
    dsimp only []
    rcases hsp : split_file_run (FS.write env.fs0 bn env.archiveData) bn
        chunk_size env.splitFailAfter with ⟨fs2, slogs, res⟩
    cases res with
    | error e =>
      dsimp only []
      apply finishRun_log_mem
      exact List.mem_append_left _ (List.mem_append_left _ (List.mem_append_left _ hm))
    | ok names =>
      dsimp only []
      apply finishRun_log_mem
      exact List.mem_append_left _
        (List.mem_append_left _ (List.mem_append_left _ (List.mem_append_left _ hm)))

theorem mainRun_caught_eq (env : Env) (bn : String) (chunk_size : Nat) :
    (mainRun env bn chunk_size).caught = errOf (tryOutcome env bn chunk_size)
      ∧ (mainRun env bn chunk_size).status = okOf (tryOutcome env bn chunk_size) := by
  unfold mainRun tryOutcome
  rcases hc : create_tarball_run env env.fs0 bn with ⟨fs1, tlogs, oe⟩
  cases oe with
  | some e =>
    dsimp only []
    exact ⟨rfl, rfl⟩
  | none =>
    dsimp only []
    rcases hsp : split_file_run fs1 bn chunk_size env.splitFailAfter with ⟨fs2, slogs, res⟩
    cases res with
    | error e =>
      dsimp only []
      exact ⟨rfl, rfl⟩
    | ok names =>
      dsimp only []
      exact ⟨rfl, rfl⟩

theorem list_lt_append (p : List Char) :
    ∀ s t : List Char, s < t → p ++ s < p ++ t := by
  induction p with
  | nil => intro s t h; exact h
  | cons a p ih =>
    intro s t h
    exact List.Lex.cons (ih s t h)

theorem str_append_lt (p s t : String) (h : s < t) : p ++ s < p ++ t := by
  rw [String.lt_iff_toList_lt] at h ⊢
  rw [show (p ++ s).toList = p.toList ++ s.toList from String.data_append p s,
      show (p ++ t).toList = p.toList ++ t.toList from String.data_append p t]
  exact list_lt_append p.toList s.toList t.toList h

set_option maxRecDepth 4000 in
theorem pad3_step : ∀ i : Nat, i < 999 →
    (pad3 i).toList < (pad3 (i + 1)).toList := by decide

theorem chunkName_lt_succ (b : String) (i : Nat) (h : i < 999) :
    chunkName b i < chunkName b (i + 1) := by
  unfold chunkName
  exact str_append_lt (b ++ ".part") (pad3 i) (pad3 (i + 1))
    (String.lt_iff_toList_lt.mpr (pad3_step i h))

theorem chunkName_chain (b : String) (k : Nat) (hk : k ≤ 1000) :
    List.Chain' (· < ·) ((List.range k).map (chunkName b)) := by
  rw [List.chain'_map]
  match k with
  | 0 => simp
  | k + 1 =>
    rw [List.chain'_range_succ]
    intro m hm
    exact chunkName_lt_succ b m (by omega)

theorem chunkName_999_not_lt :
    ¬ chunkName "b" 999 < chunkName "b" 1000 := by
  rw [String.lt_iff_toList_lt]
  decide

theorem splitChunks_nil (b : String) (n : Nat) : splitChunks b n [] = [] := by
  unfold splitChunks
  rw [splitLoop_eq, if_pos (Or.inr rfl)]

theorem splitChunks_replicate_1001 :
    (splitChunks "b" 1 (List.replicate 1001 0)).length = 1001 := by
  unfold splitChunks splitLoop
  rw [List.length_replicate]
  exact splitLoopF_replicate_len "b" 0 1002 1001 0 (by omega)

theorem splitChunks_fst_shape (b : String) (n : Nat) (data : List Nat)
    (p : String × List Nat) (hp : p ∈ splitChunks b n data) :
    ∃ i, p.1 = chunkName b i := by
  unfold splitChunks splitLoop at hp
  exact splitLoopF_fst_shape b n (data.length + 1) data 0 p hp

theorem chunkFate (env : Env) (bn : String) (chunk_size : Nat)
    (ha : env.archiveErr = none) (hs : env.splitFailAfter = none)
    (hb : basename bn = bn) :
    ∀ x ∈ runNames env bn chunk_size,
      (chunkOk env x = true → (mainRun env bn chunk_size).fs x = none) ∧
      (chunkOk env x = false → ((mainRun env bn chunk_size).fs x).isSome = true) := by
  intro x hx
  have hxn : x ∈ (splitChunks (basename bn) chunk_size env.archiveData).map Prod.fst := hx
  obtain ⟨p, hp, hpx⟩ := List.mem_map.mp hxn
  obtain ⟨i, hi⟩ := splitChunks_fst_shape (basename bn) chunk_size env.archiveData p hp
  have hxb : x ≠ bn := by
    rw [← hpx, hi, hb]
    exact chunkName_ne_base bn i
  rw [mainRun_fs_ok env bn chunk_size ha hs x hxb]
  constructor
  · intro hok
    rw [if_pos ⟨hx, hok⟩]
  · intro hok
    rw [if_neg (fun hcon => by rw [hok] at hcon; exact Bool.false_ne_true hcon.2)]
    exact writeChunks_mem_isSome x _ _ hxn

/-- C1: for every file and positive chunk size, split_file produces chunks
whose concatenation in index order restores the file byte for byte, a
nonempty file no larger than the chunk size yields exactly one chunk, and
no chunk is ever empty (in particular a file whose size is an exact
multiple of the chunk size gets no trailing empty chunk).  Amended from
the claim as stated: the one-chunk part requires the file to be nonempty,
because split_file returns no chunk at all for a zero-byte file. -/
theorem C1_split_round_trip (b : String) (n : Nat) (data : List Nat)
    (hn : 0 < n) : splitRoundTripProp b n data := by
  refine ⟨splitChunks_join b data hn, ?_, ?_⟩
  · intro hd hlen
    unfold splitChunks
    rw [splitLoop_single b 0 hn hd hlen]
    rfl
  · intro p hp
    unfold splitChunks splitLoop at hp
    exact splitLoopF_snd_ne_nil b hn (data.length + 1) data 0 p hp

/-- C1 witness: the contract evaluated on the file 1 2 3 with chunk
size 2. -/
theorem C1_split_round_trip_witness :
    0 < 2 ∧ splitRoundTripProp "a" 2 [1, 2, 3] :=
  ⟨by decide, C1_split_round_trip "a" 2 [1, 2, 3] (by decide)⟩

/-- C1 counterexample to the claim as stated: for the zero-byte file and
chunk size 1 (which is at least the file size), split_file produces zero
chunks, not exactly one. -/
theorem C1_cex :
    1 ≥ ([] : List Nat).length ∧ (splitChunks "b" 1 ([] : List Nat)).length ≠ 1 := by
  decide

/-- C2: after any run of main — whatever the injected outcomes of
archiving, splitting and the chunk uploads, and whatever the initial
filesystem — the archive file no longer exists on local storage. -/
theorem C2_archive_removed (env : Env) (bn : String) (chunk_size : Nat) :
    (mainRun env bn chunk_size).fs bn = none :=
  mainRun_fs_bn env bn chunk_size

/-- C6: upload_to_r2 returns true exactly when the storage client reports
a successful transfer to the defaulted object name; on any client error
it returns false with an error line logged; its total Bool-valued type
records that no exception escapes it. -/
theorem C6_upload_result (client : Client) (f b : String) (o : Option String) :
    uploadResultProp client f b o := by
  unfold uploadResultProp upload_to_r2
  cases h : client f b (o.getD (basename f)) <;> simp [h]

/-- C7: create_tarball adds to the archive, in list order, exactly the
source paths that exist, each rooted at its base name; every missing path
is skipped with a warning; and without an injected stream error the
operation raises nothing, whatever paths are missing. -/
theorem C7_create_archive (dirExists : String → Bool) (dirs : List String)
    (env : Env) (fs : FS) (out : String) :
    archiveMembersProp dirExists dirs ∧
      (env.archiveErr = none → (create_tarball_run env fs out).2.2 = none) := by
  refine ⟨⟨tarAddLoop_members dirExists dirs, tarAddLoop_warn dirExists dirs⟩, ?_⟩
  intro ha
  rw [create_tarball_run_ok env fs out ha]

/-- C7 witness: the contract evaluated on one existing and one missing
directory, and on an environment with no injected stream error. -/
theorem C7_create_archive_witness :
    (archiveMembersProp (fun d => d == "/a") ["/a", "/b"] ∧
      (envMixed.archiveErr = none →
        (create_tarball_run envMixed fsEmpty "t.tar.gz").2.2 = none)) :=
  C7_create_archive (fun d => d == "/a") ["/a", "/b"] envMixed fsEmpty "t.tar.gz"

/-- C8: the chunk names produced by split_file are chunkName (base name
plus ".part" plus the zero-padded index) applied to 0, 1, ... in order —
a deterministic function of the base name and the index — and, amended
from the claim as stated: the produced name list is lexicographically
increasing only when at most 1000 chunks are produced (the 03d padding is
three digits wide, so from index 1000 on the lexicographic order breaks). -/
theorem C8_chunk_naming (b : String) (n : Nat) (data : List Nat) :
    splitNamesProp b n data := by
  constructor
  · exact splitNames_eq_range b n data
  · intro hk
    rw [splitNames_eq_range b n data]
    exact chunkName_chain b _ hk

/-- C8 witness: the naming contract evaluated on a two-chunk split. -/
theorem C8_chunk_naming_witness : splitNamesProp "a" 2 [1, 2, 3, 4] :=
  C8_chunk_naming "a" 2 [1, 2, 3, 4]

set_option maxRecDepth 4000 in
/-- C8 counterexample to the claim as stated: splitting a 1001-byte file
with chunk size 1 produces 1001 chunk names which are not in lexicographic
order — name 1000 ("b.part1000") sorts before name 999 ("b.part999"). -/
theorem C8_cex :
    ¬ List.Chain' (· < ·) (splitNames "b" 1 (List.replicate 1001 0)) := by
  rw [splitNames_eq_range, splitChunks_replicate_1001]
  intro h
  rw [List.chain'_map, List.chain'_range_succ] at h
  exact chunkName_999_not_lt (h 999 (by omega))

/-- C9: main never lets an exception escape: its result is a total record
whose caught field carries exactly the exception of the try body when
there is one (the catch-all except block absorbs it, the status line is
skipped), and the finally cleanup runs on every path, so the archive file
is gone. -/
theorem C9_no_exception_escapes (env : Env) (bn : String) (chunk_size : Nat) :
    (mainRun env bn chunk_size).caught = errOf (tryOutcome env bn chunk_size) ∧
      (mainRun env bn chunk_size).status = okOf (tryOutcome env bn chunk_size) ∧
      (mainRun env bn chunk_size).fs bn = none :=
  ⟨(mainRun_caught_eq env bn chunk_size).1,
   (mainRun_caught_eq env bn chunk_size).2,
   mainRun_fs_bn env bn chunk_size⟩

/-- C3: the archive file is removed on every exit path of main, and on
runs whose archive and split stages succeed a chunk file is removed
exactly when its own upload succeeded.  Amended from the claim as stated:
not all local temporary artifacts are removed — a chunk whose upload
failed is left on disk. -/
theorem C3_cleanup (env : Env) (bn : String) (chunk_size : Nat) :
    cleanupProp env bn chunk_size :=
  ⟨mainRun_fs_bn env bn chunk_size,
   fun ha hs hb => chunkFate env bn chunk_size ha hs hb⟩

/-- C3 witness: the cleanup contract evaluated on a run whose single
chunk upload fails. -/
theorem C3_cleanup_witness : cleanupProp envChunkFail "b.tar.gz" defaultChunkSize :=
  C3_cleanup envChunkFail "b.tar.gz" defaultChunkSize

/-- C3 counterexample to the claim as stated: in a run whose only chunk
upload fails, the chunk file is still on local storage after main
returns, so not every local temporary artifact was removed. -/
theorem C3_cex :
    ((mainRun envChunkFail "b.tar.gz" defaultChunkSize).fs
      "b.tar.gz.part000").isSome = true := by decide

/-- C4: on runs whose archive and split stages succeed, main reports
success exactly when every chunk upload succeeded, and catches no
exception; a missing source directory only adds a warning line to the
log.  Amended from the claim as stated: a missing source directory does
not make the reported outcome failed — it is skipped with a warning and
the job can still report success. -/
theorem C4_report (env : Env) (bn : String) (chunk_size : Nat) :
    reportProp env bn chunk_size := by
  constructor
  · intro ha hs
    exact ⟨mainRun_status_ok env bn chunk_size ha hs,
           mainRun_caught_ok env bn chunk_size ha hs⟩
  · intro d hd hm
    exact mainRun_log_tar env bn chunk_size
      (tarAddLoop_warn env.dirExists env.folders d hd hm)

/-- C4 witness: the reporting contract evaluated on the run with a
missing source directory and successful uploads. -/
theorem C4_report_witness :
    reportProp envMissingDir "server_backup_20240101_000000.tar.gz"
      defaultChunkSize :=
  C4_report envMissingDir "server_backup_20240101_000000.tar.gz" defaultChunkSize

/-- C4 counterexample to the claim as stated: a run whose only source
directory is missing, with all uploads succeeding, reports overall
success — a missing source directory does not yield a failed report. -/
theorem C4_cex :
    "/gone" ∈ envMissingDir.folders ∧
      envMissingDir.dirExists "/gone" = false ∧
      (mainRun envMissingDir "server_backup_20240101_000000.tar.gz"
        defaultChunkSize).status = some true := by decide

/-- C5: during the upload stage of a run whose archive and split stages
succeed, the chunks are attempted exactly in index order (a failure never
stops the loop), the reported status is success exactly when every upload
succeeded, and after the run a chunk file is deleted when its upload
succeeded and still present when it failed. -/
theorem C5_upload_stage (env : Env) (bn : String) (chunk_size : Nat)
    (ha : env.archiveErr = none) (hs : env.splitFailAfter = none)
    (hb : basename bn = bn) :
    uploadStageProp env bn chunk_size :=
  ⟨mainRun_attempts_ok env bn chunk_size ha hs,
   mainRun_status_ok env bn chunk_size ha hs,
   chunkFate env bn chunk_size ha hs hb⟩

/-- C5 witness: the upload-stage contract evaluated on a two-chunk run
whose first upload succeeds and second fails. -/
theorem C5_upload_stage_witness :
    envMixed.archiveErr = none ∧ envMixed.splitFailAfter = none ∧
      basename "b" = "b" ∧ uploadStageProp envMixed "b" 1 :=
  ⟨rfl, rfl, by decide, C5_upload_stage envMixed "b" 1 rfl rfl (by decide)⟩

/-- C10: split_file on a zero-byte file returns the empty chunk list, and
a run of main whose archive is empty attempts no uploads, reports
success, and touches no other file of the local filesystem. -/
theorem C10_empty_archive (env : Env) (bn : String) (chunk_size : Nat)
    (ha : env.archiveErr = none) (hs : env.splitFailAfter = none)
    (hdata : env.archiveData = []) :
    emptyArchiveProp env bn chunk_size := by
  have hnames : runNames env bn chunk_size = [] := by
    unfold runNames splitNames
    rw [hdata, splitChunks_nil]
    rfl
  refine ⟨splitChunks_nil _ _, ?_, ?_, ?_⟩
  · rw [mainRun_attempts_ok env bn chunk_size ha hs, hnames]
  · rw [mainRun_status_ok env bn chunk_size ha hs, hnames]
    rfl
  · intro x hx
    rw [mainRun_fs_ok env bn chunk_size ha hs x hx]
    rw [if_neg (by rw [hnames]; simp)]
    rw [hdata, splitChunks_nil]
    exact FS.write_ne env.fs0 [] hx

/-- C10 witness: the zero-byte contract evaluated on the run with an
empty archive. -/
theorem C10_empty_archive_witness :
    envEmptyArchive.archiveErr = none ∧ envEmptyArchive.splitFailAfter = none ∧
      envEmptyArchive.archiveData = [] ∧
      emptyArchiveProp envEmptyArchive "b.tar.gz" defaultChunkSize :=
  ⟨rfl, rfl, rfl, C10_empty_archive envEmptyArchive "b.tar.gz" defaultChunkSize rfl rfl rfl⟩

end Backuperino
